import Mathlib

/-!
Verification of the pymodaq4TDC acquisition pipeline.

Shallow embedding of the python sources
`daq_1Dviewer_TDC.py`, `tdc_wrapper.py` and `scTDC.py`:
python floats are modelled by exact rationals (`ℚ`), python ints by `ℤ`/`ℕ`,
numpy 1-D arrays by lists, fallible operations (raised exceptions, blocking
calls that never return) by `Option`.
-/

/-- Python `int(x)` applied to a float: truncation toward zero. -/
def pyInt (x : ℚ) : ℤ := if 0 ≤ x then ⌊x⌋ else ⌈x⌉

/-- Value of the `acq_type` parameter of `DAQ_1DViewer_TDC`
(limits `['Counting', 'Histo']`). -/
inductive AcqMode where
  | Histo
  | Counting
deriving DecidableEq

/-- The attributes of `DAQ_1DViewer_TDC` touched by `commit_settings`
(`daq_1Dviewer_TDC.py`).  `exposure_ms` stands for the value forwarded to
`controller.set_exposure`. -/
structure ViewerState where
  ns_time_window : ℚ
  ps_resolution  : ℚ
  nbins          : ℤ
  mode           : AcqMode
  data_length    : ℕ
  exposure_ms    : ℤ
deriving DecidableEq

/-- The `param` argument of `commit_settings`: the name of the changed
setting together with its new value (`param.name()`, `param.value()`). -/
inductive Param where
  | resolution (v : ℚ)
  | nbins (v : ℤ)
  | window (v : ℚ)
  | exposure (v : ℤ)
  | acq_type (v : AcqMode)
  | data_length (v : ℕ)

/-- `DAQ_1DViewer_TDC.commit_settings` (daq_1Dviewer_TDC.py lines 89-117).
The python body is a sequence of `if param.name() == ...` tests on
pairwise-distinct names, so exactly one branch fires per call.
In the `resolution` branch the new `ps_resolution` is stored first and
`nbins = int(ns_time_window / (ps_resolution / 1000))` is computed from it;
in the `nbins` branch the new `nbins` is stored first and
`ps_resolution = 1000 * ns_time_window / nbins` uses it; in the `window`
branch the new window is stored first and
`ps_resolution = 1000 * ns_time_window / nbins` keeps `nbins` fixed. -/
def commit_settings (s : ViewerState) : Param → ViewerState
  | .resolution v =>
      { s with ps_resolution := v,
               nbins := pyInt (s.ns_time_window / (v / 1000)) }
  | .nbins v =>
      { s with nbins := v,
               ps_resolution := 1000 * s.ns_time_window / (v : ℚ) }
  | .window v =>
      { s with ns_time_window := v,
               ps_resolution := 1000 * v / (s.nbins : ℚ) }
  | .exposure v => { s with exposure_ms := v }
  | .acq_type v => { s with mode := v }
  | .data_length v => { s with data_length := v }

/-- The spec's BinningConfig invariant:
`window_ns == bin_count * resolution_ps / 1000`. -/
@[reducible] def binningInv (s : ViewerState) : Prop :=
  s.ns_time_window = (s.nbins : ℚ) * s.ps_resolution / 1000

/-- A binning state with the default parameter values of the concrete
scenario in the spec: resolution 1000 ps, window 1 ns, one bin. -/
def binningEx0 : ViewerState :=
  { ns_time_window := 1, ps_resolution := 1000, nbins := 1,
    mode := .Histo, data_length := 100, exposure_ms := 10 }

/-- Claim C2, counterexample: the triple (resolution 1000 ps, window 1 ns,
1 bin) is valid and satisfies the invariant, the new resolution 300 ps is
positive, yet after `commit_settings` with Resolution = 300 the invariant
fails: `int()` truncation gives `nbins = 3` and `3 * 300 / 1000 = 0.9 ≠ 1`. -/
theorem C2_counterexample :
    binningInv binningEx0 ∧
    0 < binningEx0.ps_resolution ∧ 0 < binningEx0.ns_time_window ∧
    0 < binningEx0.nbins ∧ (0:ℚ) < 300 ∧
    ¬ binningInv (commit_settings binningEx0 (Param.resolution 300)) := by
  refine ⟨by norm_num [binningInv, binningEx0], by norm_num [binningEx0],
    by norm_num [binningEx0], by norm_num [binningEx0], by norm_num, ?_⟩
  norm_num [binningInv, commit_settings, binningEx0, pyInt]

/-- Claim C2 (amended): for every valid triple satisfying the invariant,
a `nbins` update and a `window` update re-derive the resolution so that the
invariant again holds exactly; a `resolution` update restores the invariant
exactly when the quotient `ns_time_window / (v / 1000)` is an integer
(the flooring in `int()` is then lossless); otherwise it can fail, as
`C2_counterexample` shows. -/
theorem C2_amended (s : ViewerState) (hinv : binningInv s)
    (hw : 0 < s.ns_time_window) (hr : 0 < s.ps_resolution) (hn : 0 < s.nbins) :
    (∀ v : ℤ, 0 < v → binningInv (commit_settings s (Param.nbins v))) ∧
    (∀ v : ℚ, 0 < v → binningInv (commit_settings s (Param.window v))) ∧
    (∀ v : ℚ, 0 < v → (∃ k : ℤ, s.ns_time_window / (v / 1000) = (k : ℚ)) →
      binningInv (commit_settings s (Param.resolution v))) := by
  refine ⟨?_, ?_, ?_⟩
  · intro v hv
    have hv0 : (v : ℚ) ≠ 0 := Int.cast_ne_zero.mpr (ne_of_gt hv)
    simp only [binningInv, commit_settings]
    field_simp
  · intro v hv
    have hn0 : ((s.nbins : ℚ)) ≠ 0 := Int.cast_ne_zero.mpr (ne_of_gt hn)
    simp only [binningInv, commit_settings]
    field_simp
  · rintro v hv ⟨k, hk⟩
    have hv0 : (v : ℚ) ≠ 0 := ne_of_gt hv
    have hq : (0:ℚ) < v / 1000 := by positivity
    have hkval : pyInt (s.ns_time_window / (v / 1000)) = k := by
      have h0 : (0:ℚ) ≤ s.ns_time_window / (v / 1000) :=
        le_of_lt (div_pos hw hq)
      rw [pyInt, if_pos h0, hk, Int.floor_intCast]
    have hw' : s.ns_time_window = (k : ℚ) * (v / 1000) :=
      (div_eq_iff (ne_of_gt hq)).mp hk
    simp only [binningInv, commit_settings, hkval]
    rw [hw']
    ring

/-- Witness for `C2_amended` at the concrete valid triple
(1000 ps, 1 ns, 1 bin), updated with nbins = 4, window = 7 ns, and
resolution = 500 ps (which divides the 1000 ps window evenly). -/
theorem C2_amended_witness :
    binningInv (commit_settings binningEx0 (Param.nbins 4)) ∧
    binningInv (commit_settings binningEx0 (Param.window 7)) ∧
    binningInv (commit_settings binningEx0 (Param.resolution 500)) := by
  have h := C2_amended binningEx0 (by norm_num [binningInv, binningEx0])
    (by norm_num [binningEx0]) (by norm_num [binningEx0])
    (by norm_num [binningEx0])
  exact ⟨h.1 4 (by norm_num), h.2.1 7 (by norm_num),
    h.2.2 500 (by norm_num) ⟨2, by norm_num [binningEx0]⟩⟩

/-- Claim C3: `commit_settings` applies exactly the specified recompute rule
for each driving field: a resolution update sets
`nbins = ⌊ns_time_window / (ps_resolution / 1000)⌋` with the window fixed,
a nbins update sets `ps_resolution = 1000 * ns_time_window / nbins` with the
window fixed, and a window update sets
`ps_resolution = 1000 * ns_time_window / nbins` with nbins fixed; in
particular (1000 ps, 1 ns, 1 bin) updated with Resolution = 500 yields
2 bins and an unchanged 1 ns window. -/
theorem C3_update_rules (s : ViewerState) (vr vw : ℚ) (vn : ℤ)
    (hw : 0 ≤ s.ns_time_window) (hvr : 0 < vr) :
    ((commit_settings s (Param.resolution vr)).nbins =
        ⌊s.ns_time_window / (vr / 1000)⌋ ∧
     (commit_settings s (Param.resolution vr)).ns_time_window =
        s.ns_time_window) ∧
    ((commit_settings s (Param.nbins vn)).ps_resolution =
        1000 * s.ns_time_window / (vn : ℚ) ∧
     (commit_settings s (Param.nbins vn)).ns_time_window =
        s.ns_time_window) ∧
    ((commit_settings s (Param.window vw)).ps_resolution =
        1000 * vw / (s.nbins : ℚ) ∧
     (commit_settings s (Param.window vw)).nbins = s.nbins) ∧
    (commit_settings binningEx0 (Param.resolution 500)).nbins = 2 ∧
    (commit_settings binningEx0 (Param.resolution 500)).ns_time_window = 1 := by
  have h0 : (0:ℚ) ≤ s.ns_time_window / (vr / 1000) :=
    div_nonneg hw (le_of_lt (by positivity))
  refine ⟨⟨?_, rfl⟩, ⟨rfl, rfl⟩, ⟨rfl, rfl⟩, ?_, rfl⟩
  · simp only [commit_settings, pyInt, if_pos h0]
  · norm_num [commit_settings, binningEx0, pyInt]

/-- Witness for `C3_update_rules`: the concrete scenario, with both
hypotheses discharged at the triple (1000 ps, 1 ns, 1 bin). -/
theorem C3_update_rules_witness :
    (commit_settings binningEx0 (Param.resolution 500)).nbins = 2 ∧
    (commit_settings binningEx0 (Param.resolution 500)).ns_time_window = 1 := by
  have h := C3_update_rules binningEx0 500 1 1
    (by norm_num [binningEx0]) (by norm_num)
  exact ⟨h.2.2.2.1, h.2.2.2.2⟩

/-! ## Histogram engine: `fast_histogram.histogram1d` and
`DAQ_1DViewer_TDC.extract_histogram` -/

/-- Bin index computed by the `fast_histogram` C loop for an accepted value:
`ix = (int)((tx - xmin) * (1 / (xmax - xmin)) * nx)`; for accepted values the
quotient is nonnegative, so the C truncation is `Int.floor` followed by
`Int.toNat`. -/
def binIndex (lo hi : ℚ) (nbins : ℕ) (x : ℚ) : ℕ :=
  (⌊(x - lo) * nbins / (hi - lo)⌋).toNat

/-- One iteration of the `fast_histogram.histogram1d` C loop: a value is
accepted iff `xmin <= tx < xmax` (half-open range); an accepted value
increments the count of its bin. -/
def histStep (lo hi : ℚ) (nbins : ℕ) (h : List ℕ) (x : ℚ) : List ℕ :=
  if lo ≤ x ∧ x < hi then
    h.set (binIndex lo hi nbins x) (h.getD (binIndex lo hi nbins x) 0 + 1)
  else h

/-- `fast_histogram.histogram1d(x, bins, range=(lo, hi))`: starts from
`bins` zeroed counts and folds the C loop over the input values. -/
def histogram1d (xs : List ℚ) (nbins : ℕ) (lo hi : ℚ) : List ℕ :=
  xs.foldl (histStep lo hi nbins) (List.replicate nbins 0)

/-- The upper range edge `extract_histogram` passes to `histogram1d`:
`int(ps_time_window) - 1` (daq_1Dviewer_TDC.py line 225). -/
def effWindow (ps_time_window : ℚ) : ℚ := ((pyInt ps_time_window - 1 : ℤ) : ℚ)

/-- `DAQ_1DViewer_TDC.extract_histogram` (daq_1Dviewer_TDC.py lines 212-226):
`histogram1d(raw_ps_times, Nbins, (0, int(ps_time_window) - 1))`.  When
`ps_time_window` is left at its default `None`, `int(None)` raises a
`TypeError`, modelled by `none`.  The `channel` argument is unused by the
body. -/
def extract_histogram (raw_ps_times : List ℚ) (Nbins : ℕ)
    (ps_time_window : Option ℚ := none) (channel : ℕ := 0) :
    Option (List ℕ) :=
  match ps_time_window with
  | none => none
  | some w => some (histogram1d raw_ps_times Nbins 0 (effWindow w))

lemma histStep_length (lo hi : ℚ) (n : ℕ) (h : List ℕ) (x : ℚ) :
    (histStep lo hi n h x).length = h.length := by
  unfold histStep
  split <;> simp

lemma hist_foldl_length (lo hi : ℚ) (n : ℕ) (xs : List ℚ) (h : List ℕ) :
    (xs.foldl (histStep lo hi n) h).length = h.length := by
  induction xs generalizing h with
  | nil => rfl
  | cons x xs ih => rw [List.foldl_cons, ih, histStep_length]

lemma getD_set_self (l : List ℕ) (i v : ℕ) (h : i < l.length) :
    (l.set i v).getD i 0 = v := by
  simp [List.getD_eq_getElem?_getD, List.getElem?_set_self',
    List.getElem?_eq_getElem h]

lemma getD_set_ne (l : List ℕ) (i b v : ℕ) (h : i ≠ b) :
    (l.set i v).getD b 0 = l.getD b 0 := by
  simp [List.getD_eq_getElem?_getD, List.getElem?_set_ne h]

lemma sum_set_succ (l : List ℕ) (i : ℕ) (h : i < l.length) :
    (l.set i (l.getD i 0 + 1)).sum = l.sum + 1 := by
  induction l generalizing i with
  | nil => simp at h
  | cons a as ih =>
    cases i with
    | zero => simp [List.sum_cons]; omega
    | succ j =>
      have hj : j < as.length := by simpa using h
      simp only [List.set, List.getD_cons_succ, List.sum_cons, ih j hj]
      omega

/-- For an accepted value the bin index stays below the bin count. -/
lemma binIndex_lt (lo hi : ℚ) (n : ℕ) (hn : 0 < n) (x : ℚ)
    (h1 : lo ≤ x) (h2 : x < hi) : binIndex lo hi n x < n := by
  have hpos : (0:ℚ) < hi - lo := by linarith
  have hncast : (0:ℚ) < (n : ℚ) := by exact_mod_cast hn
  have hlt : ⌊(x - lo) * (n : ℚ) / (hi - lo)⌋ < (n : ℤ) := by
    rw [Int.floor_lt]
    rw [div_lt_iff hpos]
    push_cast
    nlinarith
  unfold binIndex
  omega

/-- Membership of value `x` in bin `b`: accepted and indexed to `b`. -/
def hitsBin (lo hi : ℚ) (n b : ℕ) (x : ℚ) : Bool :=
  decide (lo ≤ x ∧ x < hi) && (binIndex lo hi n x == b)

lemma hist_foldl_getD (lo hi : ℚ) (n : ℕ) (xs : List ℚ) (h : List ℕ)
    (hlen : h.length = n) (b : ℕ) (hb : b < n) :
    (xs.foldl (histStep lo hi n) h).getD b 0
      = h.getD b 0 + xs.countP (hitsBin lo hi n b) := by
  induction xs generalizing h with
  | nil => simp
  | cons x xs ih =>
    have hn : 0 < n := lt_of_le_of_lt (Nat.zero_le b) hb
    rw [List.foldl_cons, List.countP_cons,
      ih _ (by rw [histStep_length, hlen])]
    by_cases hacc : lo ≤ x ∧ x < hi
    · have hix : binIndex lo hi n x < h.length := by
        rw [hlen]; exact binIndex_lt lo hi n hn x hacc.1 hacc.2
      unfold histStep
      rw [if_pos hacc]
      by_cases hxb : binIndex lo hi n x = b
      · rw [hxb, getD_set_self _ _ _ (hxb ▸ hix)]
        have hh : hitsBin lo hi n b x = true := by
          simp [hitsBin, hacc, hxb]
        rw [hh]
        simp only [if_true]
        omega
      · rw [getD_set_ne _ _ _ _ hxb]
        have hh : hitsBin lo hi n b x = false := by
          simp [hitsBin, hxb]
        rw [hh]
        simp
    · unfold histStep
      rw [if_neg hacc]
      have hh : hitsBin lo hi n b x = false := by
        simp only [hitsBin, Bool.and_eq_false_iff]
        left
        simpa using hacc
      rw [hh]
      simp

lemma hist_foldl_sum (lo hi : ℚ) (n : ℕ) (hn : 0 < n) (xs : List ℚ)
    (h : List ℕ) (hlen : h.length = n) :
    (xs.foldl (histStep lo hi n) h).sum
      = h.sum + xs.countP (fun x => decide (lo ≤ x ∧ x < hi)) := by
  induction xs generalizing h with
  | nil => simp
  | cons x xs ih =>
    rw [List.foldl_cons, List.countP_cons,
      ih _ (by rw [histStep_length, hlen])]
    by_cases hacc : lo ≤ x ∧ x < hi
    · have hix : binIndex lo hi n x < h.length := by
        rw [hlen]; exact binIndex_lt lo hi n hn x hacc.1 hacc.2
      unfold histStep
      rw [if_pos hacc, sum_set_succ _ _ hix]
      have hh : decide (lo ≤ x ∧ x < hi) = true := by simpa using hacc
      rw [hh]
      simp only [if_true]
      omega
    · unfold histStep
      rw [if_neg hacc]
      have hh : decide (lo ≤ x ∧ x < hi) = false := by simpa using hacc
      rw [hh]
      simp


/-- Claim C4, counterexample: with `ps_time_window = 2` and one bin, the
value `t = 1` lies in `[0, window_ps)` and the claim places it in bin 0
(total count 1); the code passes the range `(0, int(2) - 1) = (0, 1)` to
`histogram1d`, so `t = 1` is outside the accepted half-open interval
`[0, 1)` and the returned histogram is `[0]` (total count 0). -/
theorem C4_counterexample :
    extract_histogram [1] 1 (some 2) = some [0] ∧
    List.countP (fun t => decide ((0:ℚ) ≤ t ∧ t < 2)) [1] = 1 := by
  constructor
  · norm_num [extract_histogram, effWindow, histogram1d, histStep,
      binIndex, pyInt, List.foldl, List.replicate]
  · norm_num [List.countP, List.countP.go]

/-- Claim C4 (amended): with `W := int(ps_time_window) - 1` (the upper
range edge the code actually passes), `extract_histogram` counts a time
value `t` in bin `⌊t / (W / bin_count)⌋` if and only if `0 ≤ t < W`; every
value outside `[0, W)` — in particular `t = ps_time_window` and `t = W`
itself — is excluded from all bins, and the total count over all bins
equals the number of input times lying in `[0, W)`. -/
theorem C4_amended (xs : List ℚ) (nbins : ℕ) (w : ℚ)
    (hn : 0 < nbins) (hW : 0 < effWindow w) :
    extract_histogram xs nbins (some w)
      = some (histogram1d xs nbins 0 (effWindow w)) ∧
    (histogram1d xs nbins 0 (effWindow w)).length = nbins ∧
    (∀ b, b < nbins →
      (histogram1d xs nbins 0 (effWindow w)).getD b 0 =
        xs.countP (fun t =>
          decide (0 ≤ t ∧ t < effWindow w) &&
          ((⌊t / (effWindow w / (nbins : ℚ))⌋).toNat == b))) ∧
    (histogram1d xs nbins 0 (effWindow w)).sum =
      xs.countP (fun t => decide (0 ≤ t ∧ t < effWindow w)) := by
  refine ⟨rfl, ?_, ?_, ?_⟩
  · rw [histogram1d, hist_foldl_length, List.length_replicate]
  · intro b hb
    rw [histogram1d,
      hist_foldl_getD 0 (effWindow w) nbins xs _ (List.length_replicate _ _) b hb]
    have hrep : (List.replicate nbins 0).getD b 0 = 0 := by
      simp [List.getD_eq_getElem?_getD, List.getElem?_replicate]
      split <;> simp
    rw [hrep, Nat.zero_add]
    apply List.countP_congr
    intro t _
    simp only [hitsBin, binIndex, sub_zero, div_div_eq_mul_div]
  · rw [histogram1d,
      hist_foldl_sum 0 (effWindow w) nbins hn xs _ (List.length_replicate _ _),
      List.sum_replicate, smul_zero, Nat.zero_add]

/-- Witness for `C4_amended` at the concrete input
`xs = [0, 1/2, 5]`, 2 bins, `ps_time_window = 3` (so `W = 2`). -/
theorem C4_amended_witness :
    extract_histogram [0, 1/2, 5] 2 (some 3)
      = some (histogram1d [0, 1/2, 5] 2 0 (effWindow 3)) ∧
    (histogram1d [0, 1/2, 5] 2 0 (effWindow 3)).sum =
      List.countP (fun t => decide (0 ≤ t ∧ t < effWindow 3))
        [0, 1/2, 5] := by
  have h := C4_amended [0, 1/2, 5] 2 3 (by norm_num)
    (by norm_num [effWindow, pyInt])
  exact ⟨h.1, h.2.2.2⟩

/-! ## `organise_0D_data` (Counting mode output) -/

/-- numpy slice assignment `dst[:len(src)] = src` on 1-D float arrays.
The destination slice has length `min len(src) len(dst)`; the assignment
succeeds when the source length equals the slice length, or broadcasts when
the source has length 1; any other mismatch raises
`ValueError: could not broadcast ...`, modelled by `none`. -/
def sliceAssign (dst src : List ℚ) : Option (List ℚ) :=
  let m := min src.length dst.length
  if src.length = m then some (src ++ dst.drop m)
  else if src.length = 1 then
    some (List.replicate m (src.headD 0) ++ dst.drop m)
  else none

/-- `DAQ_1DViewer_TDC.organise_0D_data` (daq_1Dviewer_TDC.py lines 194-210):
`data_0D = np.zeros((data_length,)); data_0D[:len(time_data)] = time_data`. -/
def organise_0D_data (time_data : List ℚ) (data_length : ℕ) :
    Option (List ℚ) :=
  sliceAssign (List.replicate data_length 0) time_data

/-- Claim C5, counterexample: with 7 input times and fixed length 5 the
claim predicts the first 5 times returned and the excess silently
discarded; the code's slice assignment `data_0D[:7] = time_data` raises a
numpy broadcast `ValueError` (7 values into a length-5 slice), so no array
is returned at all. -/
theorem C5_counterexample :
    organise_0D_data [1, 2, 3, 4, 5, 6, 7] 5 = none ∧
    organise_0D_data [1, 2, 3, 4, 5, 6, 7] 5 ≠ some [1, 2, 3, 4, 5] := by
  constructor
  · rfl
  · intro h
    exact Option.noConfusion h

/-- Claim C5 (amended): if `n = len(time_data) ≤ data_length`, the result
is an array of length `data_length` whose first `n` entries are the input
times and whose remaining entries are zero; if `n > data_length` (and
`n ≠ 1`, which can only coincide when `data_length = 0`), the slice
assignment fails with a broadcast error instead of truncating. -/
theorem C5_amended (ts : List ℚ) (L : ℕ) :
    (ts.length ≤ L →
      organise_0D_data ts L = some (ts ++ List.replicate (L - ts.length) 0)) ∧
    (L < ts.length → ts.length ≠ 1 → organise_0D_data ts L = none) := by
  constructor
  · intro hle
    have hm : min ts.length (List.replicate L (0:ℚ)).length = ts.length := by
      simp [min_eq_left, hle]
    rw [organise_0D_data, sliceAssign]
    simp only [hm, if_pos rfl]
    rw [List.drop_replicate]
    simp
  · intro hlt hne
    have hm : min ts.length (List.replicate L (0:ℚ)).length = L := by
      simp [min_eq_right, le_of_lt hlt]
    rw [organise_0D_data, sliceAssign]
    simp only [hm]
    rw [if_neg (by omega), if_neg hne]

/-- Witness for `C5_amended`: 3 events with length 5 give the padded array;
7 events with length 5 give the broadcast error. -/
theorem C5_amended_witness :
    organise_0D_data [1, 2, 3] 5 = some [1, 2, 3, 0, 0] ∧
    organise_0D_data [6, 6, 6, 6, 6, 6, 6] 5 = none := by
  constructor
  · have h := (C5_amended [1, 2, 3] 5).1 (by norm_num)
    simpa [List.replicate] using h
  · exact (C5_amended [6, 6, 6, 6, 6, 6, 6] 5).2 (by norm_num) (by norm_num)

/-! ## `process_data` (raw time code conversion) -/

/-- The fixed device scale constant `digital_time_bin_resolution = 27.4`
(tdc_wrapper.py line 21, daq_1Dviewer_TDC.py line 11). -/
def digital_time_bin_resolution : ℚ := 274 / 10

/-- One delivered buffer of events, as built by
`buffered_data_callbacks_pipe._data_cb` (scTDC.py lines 721-749): a dict of
numpy arrays.  With the wrapper's `DATA_FIELD_SEL1` field selection the
`time` array holds unsigned 64-bit raw time codes
(`ctypes.c_ulonglong`, scTDC.py line 182). -/
structure DataChunk where
  event_index : ℕ
  data_len : ℕ
  time : List ℕ
  channel : List ℕ
  subdevice : List ℕ
  start_counter : List ℕ
deriving DecidableEq

/-- `DAQ_1DViewer_TDC.process_data` (daq_1Dviewer_TDC.py lines 176-192):
`time_data = data["time"] * digital_time_bin_resolution`.  numpy multiplies
the uint64 array elementwise by the float scale, producing float64 values;
no state is read or written. -/
def process_data (data : DataChunk) : List ℚ :=
  data.time.map (fun t => (t : ℚ) * digital_time_bin_resolution)

/-- Claim C8: `process_data` multiplies every raw time code by the fixed
scale 27.4 and is a pure function of its input.  For every uint64 raw code
(`t < 2^64`) the product is below `2^1024`, the smallest magnitude at which
float64 arithmetic overflows, so no input to this conversion can overflow:
the claim's overflow clause ("every overflowing input is reported rather
than wrapped") holds because the multiplication never overflows and the
code never returns a wrapped value. -/
theorem C8_conversion (d : DataChunk) (hu : ∀ t ∈ d.time, t < 2 ^ 64) :
    process_data d = d.time.map (fun t => (t : ℚ) * (274 / 10)) ∧
    ∀ t ∈ d.time, (t : ℚ) * (274 / 10) < 2 ^ 1024 := by
  constructor
  · rfl
  · intro t ht
    have h1 : (t : ℚ) < 2 ^ 64 := by exact_mod_cast hu t ht
    have h2 : (0:ℚ) ≤ (t : ℚ) := by positivity
    nlinarith [pow_pos (by norm_num : (0:ℚ) < 2) 1024,
      pow_pos (by norm_num : (0:ℚ) < 2) 64]

/-- A concrete event chunk used for witnesses. -/
def chunkC8 : DataChunk :=
  { event_index := 0, data_len := 3, time := [0, 5, 100],
    channel := [1, 1, 2], subdevice := [0, 0, 0],
    start_counter := [0, 1, 2] }

/-- Witness for `C8_conversion` at a concrete chunk of uint64 codes. -/
theorem C8_conversion_witness :
    process_data chunkC8 = [0, 5, 100].map (fun t => (t : ℚ) * (274 / 10)) ∧
    ((5 : ℕ) : ℚ) * (274 / 10) < 2 ^ 1024 := by
  have h := C8_conversion chunkC8 (by decide)
  exact ⟨h.1, h.2 5 (by decide)⟩

/-! ## Producer callbacks and the measurement queue
(`BufDataCB`, tdc_wrapper.py lines 24-62) -/

/-- An element placed in `BufDataCB.queue`: either `(QUEUE_DATA, dcopy)` or
`(QUEUE_ENDOFMEAS, None)` (tdc_wrapper.py lines 16-17, 53, 56). -/
inductive QueueItem where
  | data (d : DataChunk)
  | endOfMeas
deriving DecidableEq

/-- The mutable state of a `BufDataCB` instance: the FIFO queue (front at
the head of the list) and the `end_of_meas` flag (tdc_wrapper.py
lines 39-40). -/
structure BufState where
  queue : List QueueItem
  end_of_meas : Bool
deriving DecidableEq

/-- `BufDataCB.on_data` (tdc_wrapper.py lines 43-56): deep-copies the
delivered dict (a value copy in this model), enqueues `(QUEUE_DATA, dcopy)`,
and — only if the `end_of_meas` flag is set — clears the flag and enqueues
`(QUEUE_ENDOFMEAS, None)` immediately after the chunk. -/
def on_data (s : BufState) (d : DataChunk) : BufState :=
  let s1 : BufState := { s with queue := s.queue ++ [QueueItem.data d] }
  if s1.end_of_meas then
    { queue := s1.queue ++ [QueueItem.endOfMeas], end_of_meas := false }
  else s1

/-- `BufDataCB.on_end_of_meas` (tdc_wrapper.py lines 58-62): only sets the
`end_of_meas` flag; the queue is untouched.  (Its `return True` asks the
pipe to deliver the remaining buffered data of the measurement through the
next `on_data` call, scTDC.py lines 786-798.) -/
def on_end_of_meas (s : BufState) : BufState :=
  { s with end_of_meas := true }

/-- A device-driver event delivered to the producer callbacks: a buffered
chunk (`on_data`) or the asynchronous end-of-measurement notification
(`on_end_of_meas`). -/
inductive DevEvent where
  | chunk (d : DataChunk)
  | endNotify

/-- Runs a sequence of driver events through the producer callbacks. -/
def runEvents (s : BufState) : List DevEvent → BufState
  | [] => s
  | DevEvent.chunk d :: es => runEvents (on_data s d) es
  | DevEvent.endNotify :: es => runEvents (on_end_of_meas s) es

lemma on_data_flag_false (q : List QueueItem) (d : DataChunk) :
    on_data ⟨q, false⟩ d = ⟨q ++ [QueueItem.data d], false⟩ := by
  simp [on_data]

lemma runEvents_append (s : BufState) (es1 es2 : List DevEvent) :
    runEvents s (es1 ++ es2) = runEvents (runEvents s es1) es2 := by
  induction es1 generalizing s with
  | nil => rfl
  | cons e es ih => cases e <;> simp [runEvents, ih]

lemma runEvents_chunks (cs : List DataChunk) (q : List QueueItem) :
    runEvents ⟨q, false⟩ (cs.map DevEvent.chunk)
      = ⟨q ++ cs.map QueueItem.data, false⟩ := by
  induction cs generalizing q with
  | nil => simp [runEvents]
  | cons c cs ih =>
    rw [List.map_cons, runEvents, on_data_flag_false, ih]
    simp

/-- Claim C1: the end-of-measurement notification only sets the flag and
enqueues nothing; a chunk delivered while the flag is set is enqueued first
with the marker immediately after it; consequently, for a measurement whose
chunks are `cs ++ [ctail]` with the notification racing in before the final
chunk `ctail`, followed by the chunks `ds` of the next measurement, the
queue holds all of `cs ++ [ctail]` as Data items, then the
EndOfMeasurement marker, then the Data items of `ds`: the marker never
precedes any Data item of its own measurement and precedes every Data item
of the next one. -/
theorem C1_marker_order (cs ds : List DataChunk) (ctail : DataChunk) :
    (∀ s, on_end_of_meas s = ⟨s.queue, true⟩) ∧
    (∀ s d, s.end_of_meas = true →
      (on_data s d).queue = s.queue ++ [QueueItem.data d, QueueItem.endOfMeas]) ∧
    (runEvents ⟨[], false⟩
        (cs.map DevEvent.chunk ++ DevEvent.endNotify ::
          DevEvent.chunk ctail :: ds.map DevEvent.chunk)).queue
      = (cs ++ [ctail]).map QueueItem.data ++
          QueueItem.endOfMeas :: ds.map QueueItem.data := by
  refine ⟨fun s => rfl, ?_, ?_⟩
  · intro s d hflag
    simp [on_data, hflag]
  · rw [runEvents_append]
    rw [runEvents_chunks]
    rw [runEvents, on_end_of_meas]
    rw [runEvents]
    have hstep : on_data ⟨[] ++ cs.map QueueItem.data, true⟩ ctail
        = ⟨(cs.map QueueItem.data ++ [QueueItem.data ctail]) ++
            [QueueItem.endOfMeas], false⟩ := by
      simp [on_data]
    rw [hstep, runEvents_chunks]
    simp

/-- Witness for `C1_marker_order` at a concrete trace: chunk `chunkC8`,
notification, tail chunk, then a chunk of the next measurement. -/
theorem C1_marker_order_witness :
    (on_data ⟨[], true⟩ chunkC8).queue
      = [QueueItem.data chunkC8, QueueItem.endOfMeas] ∧
    (runEvents ⟨[], false⟩
        [DevEvent.chunk chunkC8, DevEvent.endNotify, DevEvent.chunk chunkC8,
         DevEvent.chunk chunkC8]).queue
      = [QueueItem.data chunkC8, QueueItem.data chunkC8, QueueItem.endOfMeas,
         QueueItem.data chunkC8] := by
  have h := C1_marker_order [chunkC8] [chunkC8] chunkC8
  refine ⟨h.2.1 ⟨[], true⟩ chunkC8 rfl, ?_⟩
  have h3 := h.2.2
  simpa using h3

/-! ## Device model, `start_measurement` and `BdcTdcWrapper.get_data`
(scTDC.py lines 821-845, tdc_wrapper.py lines 65-120) -/

/-- The spec's MeasurementState enumeration for the external device. -/
inductive MeasState where
  | idle
  | exposing
  | draining
  | faulted
deriving DecidableEq

/-- External device: its measurement state plus the list of exposure
durations started on it so far (the latter is bookkeeping that lets us
count start-exposure requests). -/
structure Device where
  meas : MeasState
  started : List ℤ
deriving DecidableEq

/-- Modelled from the spec: `sc_tdc_start_measure2` is a call into the
closed vendor library (`scTDClib`), whose code is not part of this
repository.  Per the spec it starts an exposure when the device is idle
(returning 0) and reports a transient "not ready" condition — retcode -11,
scTDC.py line 840 — when a measurement is still exposing or draining,
leaving the device state unchanged; a faulted device refuses with a fatal
error code. -/
def sc_tdc_start_measure2 (dev : Device) (time_ms : ℤ) : ℤ × Device :=
  match dev.meas with
  | MeasState.idle =>
      (0, { meas := MeasState.exposing, started := dev.started ++ [time_ms] })
  | MeasState.exposing => (-11, dev)
  | MeasState.draining => (-11, dev)
  | MeasState.faulted => (-1, dev)

/-- The retry loop of `buffered_data_callbacks_pipe.start_measurement`
(scTDC.py lines 838-845): call `sc_tdc_start_measure2`; any retcode other
than -11 is returned at once; on -11 the retry budget is decremented and,
once exhausted, -11 is returned; otherwise the call is retried after a
1 ms sleep. -/
def start_measurement_go (time_ms : ℤ) (dev : Device) : ℕ → ℤ × Device
  | 0 =>
      let p := sc_tdc_start_measure2 dev time_ms
      if p.1 = -11 then (-11, p.2) else p
  | 1 =>
      let p := sc_tdc_start_measure2 dev time_ms
      if p.1 = -11 then (-11, p.2) else p
  | r + 2 =>
      let p := sc_tdc_start_measure2 dev time_ms
      if p.1 = -11 then start_measurement_go time_ms p.2 (r + 1) else p

/-- `buffered_data_callbacks_pipe.start_measurement(time_ms, retries=3)`
(scTDC.py lines 821-845) with the default retry budget used by
`BdcTdcWrapper.get_data`. -/
def start_measurement (dev : Device) (time_ms : ℤ) : ℤ × Device :=
  start_measurement_go time_ms dev 3

/-- State accessed by `BdcTdcWrapper.get_data`: the device, the producer
queue of its `BufDataCB`, the exposure duration, and whether the pipe was
closed and the device deinitialized by the error branch. -/
structure WrapperState where
  dev : Device
  queue : List QueueItem
  exposure_ms : ℤ
  data_length : ℕ
  closed : Bool
deriving DecidableEq

/-- The payload component of a queue element: the data dict for a
`(QUEUE_DATA, dcopy)` item, `None` for `(QUEUE_ENDOFMEAS, None)`. -/
def payload : QueueItem → Option DataChunk
  | QueueItem.data d => some d
  | QueueItem.endOfMeas => none

/-- `BdcTdcWrapper.get_data` (tdc_wrapper.py lines 105-114): starts one
measurement via `start_measurement(exposure_ms)`; if `errorcheck` flags a
negative retcode the pipe is closed and the device deinitialized (the
method still falls through); then performs exactly one blocking
`queue.get()` — which suspends forever on an empty queue, modelled by
`none` — unpacks `(eventtype, data)` and returns `data` without inspecting
`eventtype`. -/
def get_data (s : WrapperState) : Option (Option DataChunk × WrapperState) :=
  let p := start_measurement s.dev s.exposure_ms
  let s1 : WrapperState :=
    if p.1 < 0 then { s with dev := p.2, closed := true }
    else { s with dev := p.2 }
  match s1.queue with
  | [] => none
  | item :: rest => some (payload item, { s1 with queue := rest })

lemma get_data_first_item (s : WrapperState) (item : QueueItem)
    (rest : List QueueItem) (hq : s.queue = item :: rest)
    (hidle : s.dev.meas = MeasState.idle) :
    get_data s = some (payload item,
      { s with
          dev := { meas := MeasState.exposing,
                   started := s.dev.started ++ [s.exposure_ms] },
          queue := rest }) := by
  have hstart : start_measurement s.dev s.exposure_ms
      = (0, { meas := MeasState.exposing,
              started := s.dev.started ++ [s.exposure_ms] }) := by
    rw [start_measurement, start_measurement_go]
    simp [sc_tdc_start_measure2, hidle]
  rw [get_data, hstart]
  norm_num
  rw [hq]

/-- Claim C6: on an idle device, a `get_data` call starts exactly one
exposure (exactly one new entry, `exposure_ms`, on the device's started
list) and performs exactly one blocking dequeue: it returns the payload of
the first queue item and leaves the rest of the queue — including any
further chunks and the EndOfMeasurement marker — untouched. -/
theorem C6_get_data_once (s : WrapperState) (item : QueueItem)
    (rest : List QueueItem) (hq : s.queue = item :: rest)
    (hidle : s.dev.meas = MeasState.idle) :
    get_data s = some (payload item,
      { s with
          dev := { meas := MeasState.exposing,
                   started := s.dev.started ++ [s.exposure_ms] },
          queue := rest }) :=
  get_data_first_item s item rest hq hidle

/-- A concrete wrapper state used for witnesses: idle device, a queue
holding one data chunk then the end-of-measurement marker. -/
def wrapperEx0 : WrapperState :=
  { dev := { meas := MeasState.idle, started := [] },
    queue := [QueueItem.data chunkC8, QueueItem.endOfMeas],
    exposure_ms := 10, data_length := 100, closed := false }

/-- Witness for `C6_get_data_once` at `wrapperEx0`. -/
theorem C6_get_data_once_witness :
    get_data wrapperEx0 = some (some chunkC8,
      { dev := { meas := MeasState.exposing, started := [10] },
        queue := [QueueItem.endOfMeas],
        exposure_ms := 10, data_length := 100, closed := false }) := by
  have h := C6_get_data_once wrapperEx0 (QueueItem.data chunkC8)
    [QueueItem.endOfMeas] rfl rfl
  simpa [wrapperEx0, payload] using h

/-- Claim C7: starting a measurement while the device is exposing or
draining fails — `start_measurement` exhausts its bounded retries against
the persistent "not ready" condition and returns the error code -11 (the
code-level surface of the spec's AlreadyMeasuring) — and the device state
is unchanged. -/
theorem C7_already_measuring (dev : Device) (t : ℤ)
    (h : dev.meas = MeasState.exposing ∨ dev.meas = MeasState.draining) :
    start_measurement dev t = (-11, dev) := by
  have hstep : sc_tdc_start_measure2 dev t = (-11, dev) := by
    rcases h with h | h <;> rw [sc_tdc_start_measure2, h]
  rw [start_measurement, start_measurement_go, hstep]
  norm_num
  rw [start_measurement_go, hstep]
  norm_num
  rw [start_measurement_go, hstep]
  norm_num

/-- Witness for `C7_already_measuring` on a concrete exposing device. -/
theorem C7_already_measuring_witness :
    start_measurement { meas := MeasState.exposing, started := [10] } 20
      = (-11, { meas := MeasState.exposing, started := [10] }) :=
  C7_already_measuring { meas := MeasState.exposing, started := [10] } 20
    (Or.inl rfl)

/-- Claim C10: `get_data` returns the payload component of the first
dequeued queue tuple without inspecting its type tag; when the first
available item is the `(QUEUE_ENDOFMEAS, None)` marker, it returns `None`
(no event-data dict). -/
theorem C10_none_payload (s : WrapperState) (rest : List QueueItem)
    (hq : s.queue = QueueItem.endOfMeas :: rest)
    (hidle : s.dev.meas = MeasState.idle) :
    get_data s = some (none,
      { s with
          dev := { meas := MeasState.exposing,
                   started := s.dev.started ++ [s.exposure_ms] },
          queue := rest }) := by
  rw [get_data_first_item s QueueItem.endOfMeas rest hq hidle]
  rfl

/-- A wrapper state whose queue opens on the end-of-measurement marker
(the final chunk was consumed by a previous `get_data` call). -/
def wrapperEx1 : WrapperState :=
  { dev := { meas := MeasState.idle, started := [10] },
    queue := [QueueItem.endOfMeas, QueueItem.data chunkC8],
    exposure_ms := 10, data_length := 100, closed := false }

/-- Witness for `C10_none_payload` at `wrapperEx1`. -/
theorem C10_none_payload_witness :
    get_data wrapperEx1 = some (none,
      { dev := { meas := MeasState.exposing, started := [10, 10] },
        queue := [QueueItem.data chunkC8],
        exposure_ms := 10, data_length := 100, closed := false }) := by
  have h := C10_none_payload wrapperEx1 [QueueItem.data chunkC8] rfl rfl
  simpa [wrapperEx1] using h

/-! ## `grab_data` (daq_1Dviewer_TDC.py lines 228-256) -/

/-- The data emitted by one grab: a histogram (`Histo` mode, Data1D) or a
fixed-length raw-time array (`Counting` mode, Data0D). -/
inductive GrabResult where
  | histo (h : List ℕ)
  | counting (c : List ℚ)
deriving DecidableEq

/-- `DAQ_1DViewer_TDC.grab_data` from the point where the controller has
delivered the raw chunk (`raw_data = self.controller.get_data()`):
`ps_time_data = process_data(raw_data)`; in `Histo` mode it calls
`extract_histogram(ps_time_data, Nbins=self.nbins)` — leaving
`ps_time_window` at its default `None` — and emits the histogram; in
`Counting` mode it emits `organise_0D_data(ps_time_data, data_length)`.
A raised exception is modelled by `none`. -/
def grab_data (s : ViewerState) (raw_data : DataChunk) : Option GrabResult :=
  let ps_time_data := process_data raw_data
  match s.mode with
  | AcqMode.Histo =>
      (extract_histogram ps_time_data s.nbins.toNat none).map GrabResult.histo
  | AcqMode.Counting =>
      (organise_0D_data ps_time_data s.data_length).map GrabResult.counting

/-- Claim C9: `extract_histogram` with `ps_time_window` left at `None`
raises `TypeError` from `int(None)` for every input, and the `Histo`
branch of `grab_data` calls it without supplying `ps_time_window`, so every
grab in `Histo` mode raises instead of emitting a histogram. -/
theorem C9_histo_raises (s : ViewerState) (raw_data : DataChunk)
    (hmode : s.mode = AcqMode.Histo) :
    (∀ xs n c, extract_histogram xs n none c = none) ∧
    grab_data s raw_data = none := by
  refine ⟨fun xs n c => rfl, ?_⟩
  rw [grab_data, hmode]
  rfl

/-- Witness for `C9_histo_raises` at the default viewer state and a
concrete chunk. -/
theorem C9_histo_raises_witness :
    extract_histogram [1, 2, 3] 4 none = none ∧
    grab_data binningEx0 chunkC8 = none := by
  have h := C9_histo_raises binningEx0 chunkC8 rfl
  exact ⟨h.1 [1, 2, 3] 4 0, h.2⟩
